import Mathlib

/-!
# Kernel entry routine: `src/kernel.c`

The whole program is

    void main() {
      char *video_memory = (char *)0xb8000;   -- line 7
      *video_memory = 'X';                    -- line 8
    }                                         -- line 9

The development below embeds it twice, both times from the source text:

* `main` is the state-passing reading: memory in, memory out;
* `step` / `run` is the control-point reading: one transition per statement,
  plus the transition taken at the closing brace, with the list of stores
  issued so far carried in the state.

`run_init` shows that the two readings agree.
-/

namespace Kernel

/-! ## Memory -/

/-- Physical address. -/
abbrev Addr := Nat

/-- Content of one memory location.  Every store reduces modulo 256. -/
abbrev Byte := Nat

/-- Byte-addressed physical memory. -/
abbrev Mem := Addr → Byte

/-- Value of a C character constant: an `int` holding the code of the
character. -/
def charLit (c : Char) : Int := c.toNat

/-- Value of an `int` after conversion to `signed char` (range -128..127). -/
def toSignedChar (v : Int) : Int := (v + 128) % 256 - 128

/-- Value of an `int` after conversion to `unsigned char` (range 0..255). -/
def toUnsignedChar (v : Int) : Int := v % 256

/-- Object representation, in one byte, of a value assigned to a `char`
lvalue (two's complement). -/
def charByte (v : Int) : Byte := (v % 256).toNat

/-- Effect on memory of `*p = v;` for `char *p`. -/
def store (m : Mem) (p : Addr) (v : Int) : Mem :=
  fun a => if a = p then charByte v else m a

/-! ## The routine, state-passing reading -/

/-- Initialiser of the local `video_memory` (line 7): the integer constant
`0xb8000` cast to `char *`.  The constant needs 20 bits, so the cast keeps
its value for every pointer width of at least 20 bits (`ptrCast_video`). -/
def video_memory : Addr := 0xb8000

/-- Integer-to-pointer cast for a pointer of `w` bits. -/
def ptrCast (w : Nat) (n : Nat) : Addr := n % 2 ^ w

/-- Parameter list of `main` as written in the source: `()`. -/
def main_params : List String := []

/-- The routine `main` of `src/kernel.c` as a function on memory. -/
def main (m : Mem) : Mem :=
  let video_memory : Addr := 0xb8000
  store m video_memory (charLit 'X')

/-! ## The routine, control-point reading -/

/-- Control points of `main`. -/
inductive Ctl where
  /-- Control has just arrived at the opening brace (line 6). -/
  | Entered
  /-- Line 7 has run: `video_memory` is initialised. -/
  | Declared
  /-- Line 8 has run: the store is issued; control is at the closing brace. -/
  | WriteIssued
  /-- Control has gone back to the caller of `main`. -/
  | Returned
  deriving DecidableEq

/-- One store as seen on the bus: target address and byte written. -/
abbrev Store := Addr × Byte

/-- Machine state during one activation of `main`. -/
structure State where
  /-- Control point. -/
  ctl : Ctl
  /-- The local `video_memory`; `none` while uninitialised. -/
  video_memory : Option Addr
  /-- Physical memory. -/
  mem : Mem
  /-- Stores issued so far, oldest first. -/
  stores : List Store

/-- State on entry to `main` with memory `m`. -/
def init (m : Mem) : State :=
  { ctl := .Entered, video_memory := none, mem := m, stores := [] }

/-- One transition of `main`.  `none` means `main` has no transition from
this state: either control is no longer inside `main`, or the pointer that
line 8 dereferences was never initialised. -/
def step (s : State) : Option State :=
  match s.ctl with
  | .Entered => some { s with ctl := .Declared, video_memory := some 0xb8000 }
  | .Declared =>
    match s.video_memory with
    | some p =>
      some { s with
        ctl := .WriteIssued
        mem := store s.mem p (charLit 'X')
        stores := s.stores ++ [(p, charByte (charLit 'X'))] }
    | none => none
  | .WriteIssued => some { s with ctl := .Returned }
  | .Returned => none

/-- Run `main` until control is back at the caller, for at most `fuel`
transitions.  `none`: the fuel ran out or a transition was missing. -/
def run : Nat → State → Option State
  | 0, s => if s.ctl = .Returned then some s else none
  | fuel + 1, s => if s.ctl = .Returned then some s else (step s).bind (run fuel)

/-- The `k`-th state reached from `s`, when all `k` transitions exist. -/
def stepN : Nat → State → Option State
  | 0, s => some s
  | k + 1, s => (step s).bind (stepN k)

/-! ## The text buffer -/

/-- Character byte of cell `i` of the text buffer based at `0xb8000`
(two bytes per cell, character byte first). -/
def cellChar (m : Mem) (i : Nat) : Byte := m (0xb8000 + 2 * i)

/-- Attribute byte of cell `i`. -/
def cellAttr (m : Mem) (i : Nat) : Byte := m (0xb8000 + 2 * i + 1)

/-- Cell `i` read as a little-endian 16-bit value. -/
def cell (m : Mem) (i : Nat) : Nat := cellChar m i + 256 * cellAttr m i

/-- Address `a` lies in a text buffer of `n` cells. -/
def inVideoBuffer (n : Nat) (a : Addr) : Prop := 0xb8000 ≤ a ∧ a < 0xb8000 + 2 * n

instance (n : Nat) (a : Addr) : Decidable (inVideoBuffer n a) := by
  unfold inVideoBuffer; infer_instance

/-- Indices below `n` of the cells in which `m` and `m2` differ. -/
def changedCells (n : Nat) (m m2 : Mem) : List Nat :=
  (List.range n).filter
    (fun i => decide (cellChar m i ≠ cellChar m2 i ∨ cellAttr m i ≠ cellAttr m2 i))

/-- Memory after the stores of a trace have been applied to `m`, oldest
first. -/
def applyStores (m : Mem) (ss : List Store) : Mem :=
  ss.foldl (fun acc st => fun a => if a = st.1 then st.2 else acc a) m

/-! ## Concrete memories and states used as test inputs -/

/-- Memory that holds zero everywhere. -/
def blank : Mem := fun _ => 0

/-- Memory that holds zero everywhere except for an X already present in the
character byte of cell 0. -/
def screenWithX : Mem := fun a => if a = 0xb8000 then 88 else 0

/-- The state of `main` right after its store, started on `blank`. -/
def wroteBlank : State :=
  { ctl := .WriteIssued, video_memory := some 0xb8000, mem := main blank,
    stores := [(0xb8000, 88)] }

/-! ## Shared lemmas -/

theorem charLit_X : charLit 'X' = 88 := by decide

theorem charByte_X : charByte (charLit 'X') = 88 := by decide

theorem main_apply (m : Mem) (a : Addr) :
    main m a = if a = 753664 then 88 else m a := by
  simp [main, store, charByte_X]

theorem ptrCast_video (w : Nat) (h : 20 ≤ w) : ptrCast w 0xb8000 = video_memory := by
  unfold ptrCast video_memory
  apply Nat.mod_eq_of_lt
  calc 0xb8000 < 2 ^ 20 := by norm_num
    _ ≤ 2 ^ w := Nat.pow_le_pow_right (by norm_num) h

theorem run_init (m : Mem) :
    run 3 (init m) =
      some { ctl := .Returned, video_memory := some 0xb8000, mem := main m,
             stores := [(0xb8000, 88)] } := by
  simp [run, init, step, main, charByte_X]

theorem run_init_fuel (m : Mem) (fuel : Nat) (h : 3 ≤ fuel) :
    run fuel (init m) =
      some { ctl := .Returned, video_memory := some 0xb8000, mem := main m,
             stores := [(0xb8000, 88)] } := by
  obtain ⟨k, rfl⟩ := Nat.exists_eq_add_of_le h
  rw [show 3 + k = (k + 2) + 1 by omega, run]
  rw [show k + 2 = (k + 1) + 1 by omega]
  simp only [init, step, Option.some_bind, run]
  cases k <;> simp [run, step, main, charByte_X]

theorem main_cellChar_zero (m : Mem) : cellChar (main m) 0 = 88 := by
  simp [cellChar, main_apply]

theorem main_cellAttr (m : Mem) (i : Nat) : cellAttr (main m) i = cellAttr m i := by
  have h : 753664 + 2 * i + 1 ≠ 753664 := by omega
  simp [cellAttr, main_apply, h]

theorem main_cellChar_succ (m : Mem) (i : Nat) (h : 1 ≤ i) :
    cellChar (main m) i = cellChar m i := by
  have h2 : 753664 + 2 * i ≠ 753664 := by omega
  simp [cellChar, main_apply, h2]

theorem filter_zero_range (n : Nat) (h : 0 < n) :
    (List.range n).filter (fun i => decide (i = 0)) = [0] := by
  obtain ⟨k, rfl⟩ : ∃ k, n = k + 1 := ⟨n - 1, by omega⟩
  rw [List.range_succ_eq_map, List.filter_cons]
  simp [List.filter_map, List.filter_eq_nil_iff]

theorem changedCells_main (n : Nat) (m : Mem) (h : 0 < n) :
    changedCells n m (main m) = if m 0xB8000 = 88 then [] else [0] := by
  unfold changedCells
  by_cases hX : m 0xB8000 = 88
  · rw [if_pos hX, List.filter_eq_nil_iff]
    intro i _
    rcases Nat.eq_zero_or_pos i with rfl | hi
    · simp [main_cellAttr, cellChar, main_apply, hX]
    · simp [main_cellAttr, main_cellChar_succ m i hi]
  · rw [if_neg hX, ← filter_zero_range n h]
    apply List.filter_congr
    intro i _
    rcases Nat.eq_zero_or_pos i with rfl | hi
    · simp [main_cellAttr, cellChar, main_apply, hX]
    · have : i ≠ 0 := by omega
      simp [main_cellAttr, main_cellChar_succ m i hi, this]

/-! ## Claims -/

/-- C1: for every initial memory, the byte at physical address 0xB8000 (the
character byte of cell 0 of the text buffer) after `main` has run is 88, and
88 is the code of the character X. -/
theorem main_writes_X (m : Mem) :
    main m 0xB8000 = 88 ∧ cellChar (main m) 0 = 88 ∧ ('X').toNat = 88 := by
  refine ⟨?_, main_cellChar_zero m, by decide⟩
  simp [main_apply]

/-- C2, as stated, fails: started on the all-zero memory, `main` is at
`WriteIssued` after two transitions and its third transition leaves the
routine (control is back at the caller), so it does not stay at
`WriteIssued`. -/
theorem main_leaves_WriteIssued :
    (stepN 2 (init blank)).map State.ctl = some Ctl.WriteIssued ∧
    (stepN 3 (init blank)).map State.ctl = some Ctl.Returned := by
  constructor <;> simp [stepN, step, init]

/-- C2, amended: from every state at `WriteIssued` the only transition of
`main` is the one at its closing brace, which hands control back to the
caller and leaves the local, the memory and the store trace as they are;
after it `main` has no transition at all, so it contains no idle or halt
loop. -/
theorem writeIssued_returns (s : State) (h : s.ctl = .WriteIssued) :
    step s = some { s with ctl := .Returned } ∧
    (step s).bind step = none ∧
    ∀ k, 2 ≤ k → stepN k s = none := by
  have h1 : step s = some { s with ctl := .Returned } := by
    simp [step, h]
  have h2 : (step s).bind step = none := by
    rw [h1]
    simp [step]
  refine ⟨h1, h2, ?_⟩
  intro k hk
  obtain ⟨j, rfl⟩ := Nat.exists_eq_add_of_le hk
  rw [show 2 + j = (j + 1) + 1 by omega, stepN, h1, Option.some_bind, stepN]
  simp [step]

/-- Instance of `writeIssued_returns` at the state `main` reaches from the
all-zero memory. -/
theorem writeIssued_returns_witness :
    wroteBlank.ctl = .WriteIssued ∧
    stepN 2 (init blank) = some wroteBlank ∧
    step wroteBlank = some { wroteBlank with ctl := .Returned } :=
  ⟨rfl, by simp [stepN, step, init, wroteBlank, main, charByte_X],
    (writeIssued_returns wroteBlank rfl).1⟩

/-- C3: for every initial memory and every address other than 0xB8000, the
byte there after `main` equals the byte there before; in particular the
attribute byte of cell 0 (address 0xB8001) and both bytes of every cell at
offset 1 or more are unchanged. -/
theorem main_frame (m : Mem) (a : Addr) (h : a ≠ 0xB8000) :
    main m a = m a ∧
    main m 0xB8001 = m 0xB8001 ∧
    ∀ i, 1 ≤ i →
      cellChar (main m) i = cellChar m i ∧ cellAttr (main m) i = cellAttr m i ∧
        cell (main m) i = cell m i := by
  refine ⟨by simp [main_apply, h], by simp [main_apply], ?_⟩
  intro i hi
  refine ⟨main_cellChar_succ m i hi, main_cellAttr m i, ?_⟩
  simp [cell, main_cellChar_succ m i hi, main_cellAttr m i]

/-- Instance of `main_frame` at the all-zero memory and address 0xB8002. -/
theorem main_frame_witness :
    (0xB8002 : Addr) ≠ 0xB8000 ∧ main blank 0xB8002 = blank 0xB8002 :=
  ⟨by decide, (main_frame blank 0xB8002 (by decide)).1⟩

/-- C4: for every initial memory, one execution of `main` runs to its end
and has issued exactly one store; that store targets address 0xB8000, which
lies in the text buffer (of any positive number of cells), so no store
targets an address outside the buffer; and the final memory is the initial
one with exactly that trace applied. -/
theorem main_single_store (m : Mem) (n : Nat) (h : 0 < n) :
    ∃ s, run 3 (init m) = some s ∧ s.stores.length = 1 ∧
      (∀ st ∈ s.stores, st.1 = 0xB8000 ∧ inVideoBuffer n st.1) ∧
      s.mem = applyStores m s.stores := by
  refine ⟨_, run_init m, rfl, ?_, ?_⟩
  · intro st hst
    simp only [List.mem_singleton] at hst
    subst hst
    refine ⟨rfl, ?_⟩
    have hlt : (753664 : Nat) < 753664 + 2 * n := by omega
    exact ⟨Nat.le_refl _, hlt⟩
  · funext a
    simp [applyStores, main_apply]

/-- Instance of `main_single_store` at the all-zero memory and a buffer of
2000 cells. -/
theorem main_single_store_witness :
    0 < 2000 ∧
    ∃ s, run 3 (init blank) = some s ∧ s.stores.length = 1 ∧
      (∀ st ∈ s.stores, st.1 = 0xB8000 ∧ inVideoBuffer 2000 st.1) ∧
      s.mem = applyStores blank s.stores :=
  ⟨by decide, main_single_store blank 2000 (by decide)⟩

/-- C5, as stated, fails: on a memory whose cell 0 already shows X, no cell
of a 2000-cell buffer differs between before and after `main`, so the number
of changed cells is 0, not 1. -/
theorem no_cell_changes_on_screenWithX :
    changedCells 2000 screenWithX (main screenWithX) = [] ∧
    (changedCells 2000 screenWithX (main screenWithX)).length ≠ 1 := by
  have h := changedCells_main 2000 screenWithX (by decide)
  simp only [screenWithX, if_true] at h
  simp [screenWithX, h]

/-- C5, amended: in a buffer of at least one cell, the cells that differ
between before and after `main` are cell 0 alone when the byte at 0xB8000
was not already 88, and none when it was; so at most one cell changes. -/
theorem main_changes_at_most_cell_zero (m : Mem) (n : Nat) (h : 0 < n) :
    changedCells n m (main m) = (if m 0xB8000 = 88 then [] else [0]) ∧
    (changedCells n m (main m)).length ≤ 1 := by
  have hc := changedCells_main n m h
  refine ⟨hc, ?_⟩
  rw [hc]
  split <;> simp

/-- Instance of `main_changes_at_most_cell_zero` at the all-zero memory and
a buffer of 2000 cells. -/
theorem main_changes_at_most_cell_zero_witness :
    0 < 2000 ∧
    changedCells 2000 blank (main blank) = (if blank 0xB8000 = 88 then [] else [0]) ∧
    (changedCells 2000 blank (main blank)).length ≤ 1 :=
  ⟨by decide, main_changes_at_most_cell_zero blank 2000 (by decide)⟩

/-- C6: `main` is idempotent on memory: running it on its own output gives
that output again; a second activation, on the memory the first one left,
ends with the same memory and has issued the same store trace as the first
(nothing accumulates). -/
theorem main_idempotent (m : Mem) :
    main (main m) = main m ∧
    (run 3 (init (main m))).map State.mem = (run 3 (init m)).map State.mem ∧
    (run 3 (init (main m))).map State.stores = (run 3 (init m)).map State.stores := by
  have hi : main (main m) = main m := by
    funext a
    simp only [main_apply]
    split <;> rfl
  refine ⟨hi, ?_, ?_⟩
  · simp [run_init, hi]
  · simp [run_init]

/-- C7: when cell 0 of the buffer holds 0x0000 before `main`, afterwards its
character byte is 88 and its attribute byte is 0, so the cell reads 0x0058;
the run of `main` ends and none of its stores targets the attribute byte. -/
theorem main_scenario_zero_cell (m : Mem) (h : cell m 0 = 0x0000) :
    cellChar (main m) 0 = 88 ∧ cellAttr (main m) 0 = 0 ∧ cell (main m) 0 = 0x0058 ∧
    main m 0xB8000 = 88 ∧ main m 0xB8001 = 0 ∧
    ∃ s, run 3 (init m) = some s ∧ ∀ st ∈ s.stores, st.1 ≠ 0xB8001 := by
  have ha : cellAttr m 0 = 0 := by
    have h2 : cellChar m 0 + 256 * cellAttr m 0 = 0 := h
    have h3 : 256 * cellAttr m 0 = 0 := Nat.eq_zero_of_add_eq_zero_left h2
    exact (Nat.mul_eq_zero.mp h3).resolve_left (by decide)
  have ha2 : m 753665 = 0 := by simpa [cellAttr] using ha
  refine ⟨main_cellChar_zero m, by rw [main_cellAttr, ha], ?_, by simp [main_apply],
    by simp [main_apply, ha2], _, run_init m, ?_⟩
  · simp [cell, main_cellChar_zero, main_cellAttr, ha]
  · intro st hst
    simp only [List.mem_singleton] at hst
    subst hst
    decide

/-- Instance of `main_scenario_zero_cell` at the all-zero memory. -/
theorem main_scenario_zero_cell_witness :
    cell blank 0 = 0x0000 ∧ cell (main blank) 0 = 0x0058 :=
  ⟨rfl, (main_scenario_zero_cell blank rfl).2.2.1⟩

/-- C8: `main` has no error path: its parameter list is empty, and for every
initial memory and every fuel of at least 3 the run ends with control back
at the caller, with the final memory `main m`, having issued the store of 88
to 0xB8000 whatever the memory held. -/
theorem main_total (m : Mem) (fuel : Nat) (h : 3 ≤ fuel) :
    main_params = [] ∧
    ∃ s, run fuel (init m) = some s ∧ s.ctl = .Returned ∧ s.mem = main m ∧
      s.stores = [(0xB8000, 88)] :=
  ⟨rfl, _, run_init_fuel m fuel h, rfl, rfl, rfl⟩

/-- Instance of `main_total` at the all-zero memory with fuel 5. -/
theorem main_total_witness :
    3 ≤ 5 ∧
    ∃ s, run 5 (init blank) = some s ∧ s.ctl = .Returned ∧ s.mem = main blank ∧
      s.stores = [(0xB8000, 88)] :=
  ⟨by decide, (main_total blank 5 (by decide)).2⟩

/-- C9: the effect of `main` does not depend on what memory held: for any
two initial memories the byte at 0xB8000 afterwards is the same and the
store traces are the same, and if the two memories agree at every address
other than 0xB8000 the two final memories are equal. -/
theorem main_ignores_memory (m1 m2 : Mem) :
    main m1 0xB8000 = main m2 0xB8000 ∧
    (run 3 (init m1)).map State.stores = (run 3 (init m2)).map State.stores ∧
    ((∀ a, a ≠ 0xB8000 → m1 a = m2 a) → main m1 = main m2) := by
  refine ⟨by simp [main_apply], by simp [run_init], ?_⟩
  intro hagree
  funext a
  simp only [main_apply]
  split
  · rfl
  · next hne => exact hagree a hne

/-- Instance of `main_ignores_memory` at the all-zero memory and the memory
that already shows X in cell 0. -/
theorem main_ignores_memory_witness :
    (∀ a, a ≠ 0xB8000 → blank a = screenWithX a) ∧ main blank = main screenWithX :=
  have hagree : ∀ a, a ≠ 0xB8000 → blank a = screenWithX a := by
    intro a ha
    simp [blank, screenWithX, ha]
  ⟨hagree, (main_ignores_memory blank screenWithX).2.2 hagree⟩

/-- C10: the address `main` stores to is the constant 0xB8000 = 753664, the
address of offset 0 of the text buffer; it is even, so it is the character
byte of cell 0 and the attribute byte of no cell; the stored value 88 lies
in 0..127, so converting it to signed or to unsigned `char` gives the same
value and the same byte. -/
theorem main_store_address_and_value (m : Mem) :
    (∃ s, run 3 (init m) = some s ∧ s.stores = [(753664, 88)]) ∧
    video_memory = 753664 ∧ (0xB8000 : Nat) = 753664 ∧ 753664 % 2 = 0 ∧
    753664 = 0xB8000 + 2 * 0 ∧ cellChar (main m) 0 = 88 ∧
    (∀ i, 753664 ≠ 0xB8000 + 2 * i + 1) ∧
    charLit 'X' = 88 ∧ 0 ≤ charLit 'X' ∧ charLit 'X' ≤ 127 ∧
    toSignedChar (charLit 'X') = 88 ∧ toUnsignedChar (charLit 'X') = 88 ∧
    charByte (toSignedChar (charLit 'X')) = 88 ∧
    charByte (toUnsignedChar (charLit 'X')) = 88 := by
  refine ⟨⟨_, run_init m, rfl⟩, rfl, rfl, rfl, rfl, main_cellChar_zero m, ?_,
    by decide, by decide, by decide, by decide, by decide, by decide, by decide⟩
  intro i
  omega

end Kernel
